import Mathlib

/-!
Shallow embedding of the EDA pipeline in `functions.py`: `load_dataset`,
`process_first_year_stats`, `rename_header` and `save_outputs`.

Strings are Lean `String`s (lists of characters); the ASCII fragments of
Python's `str.lower`, `str.strip` and the `re` character classes used by the
source are modelled character by character.  pandas numeric cells are modelled
by exact rationals (`Q` below) so that every pipeline computation is
kernel-computable; a cell of the raw `value` column is `Option Q`, `none`
standing for a value `pd.to_numeric(..., errors="coerce")` turns into NaN.
A `DataFrame` is a list of column names plus a list of rows.
-/

/-- Model of the ASCII fragment of Python `str.lower` on one character:
code points 65..90 are shifted by 32, everything else is unchanged. -/
def lowerChar (c : Char) : Char :=
  if h : 65 ≤ c.toNat ∧ c.toNat ≤ 90 then
    ⟨⟨BitVec.ofNatLt (c.toNat + 32) (by omega)⟩, Or.inl (show c.toNat + 32 < 55296 by omega)⟩
  else c

/-- Python `str.lower` on a string, as a map over its characters. -/
def lowerStr (l : List Char) : List Char := l.map lowerChar

/-- Whitespace characters stripped by Python `str.strip` and matched by the
regex class `\s` (ASCII fragment). -/
def wsChar (c : Char) : Bool :=
  decide (c = ' ') || decide (c = '\t') || decide (c = '\n') || decide (c = '\r') ||
    decide (c = '\x0b') || decide (c = '\x0c')

/-- Characters replaced by `_` in `rename_header`: the regex class `[\s,()]`. -/
def specialChar (c : Char) : Bool :=
  wsChar c || decide (c = ',') || decide (c = '(') || decide (c = ')')

/-- Model of Python `str.strip`: drop whitespace from both ends. -/
def stripL (l : List Char) : List Char :=
  ((l.dropWhile wsChar).reverse.dropWhile wsChar).reverse

/-- Column canonicalisation `col.strip().lower()` used by `load_dataset` and by
the first line of `process_first_year_stats`. -/
def canonCol (s : String) : String := String.mk (lowerStr (stripL s.data))

/-- Python `str.lower` applied to a whole string (no strip), as used in the
counts split `df["unit"].str.lower()`. -/
def strLower (s : String) : String := String.mk (lowerStr s.data)

/-- Lexicographic code-point comparison of character lists, mirroring Python
string ordering (used by pandas when sorting group keys and pivot labels). -/
def strLeAux : List Char → List Char → Bool
  | [], _ => true
  | _ :: _, [] => false
  | c :: cs, d :: ds =>
      if c.toNat < d.toNat then true
      else if d.toNat < c.toNat then false
      else strLeAux cs ds

/-- Python-style string ordering. -/
def strLe (a b : String) : Bool := strLeAux a.data b.data

/-- Exact rational numbers with kernel-computable arithmetic, modelling the
float cells of the pipeline (all values handled by the claims are exactly
representable). `den` is kept positive and coprime to `num` by `normQ`. -/
structure Q where
  num : Int
  den : Nat
deriving DecidableEq

/-- Normalised rational `n / d` (sign moved to the numerator, gcd cancelled). -/
def normQ (n d : Int) : Q :=
  if d = 0 then ⟨0, 1⟩
  else
    let n' := if d < 0 then -n else n
    let d' := d.natAbs
    let g := Nat.gcd n'.natAbs d'
    ⟨n' / g, d' / g⟩

/-- Rational zero. -/
def Q.zero : Q := ⟨0, 1⟩

/-- Rational addition. -/
def Q.add (a b : Q) : Q := normQ (a.num * b.den + b.num * a.den) (a.den * b.den)

/-- Rational division. -/
def Q.div (a b : Q) : Q := normQ (a.num * b.den) (a.den * b.num)

/-- Embedding of an integer. -/
def Q.ofInt (n : Int) : Q := ⟨n, 1⟩

/-- Sum of a list of rationals (pandas `Series.sum`). -/
def qsum (l : List Q) : Q := l.foldr Q.add Q.zero

/-- Round-half-to-even to an integer, the rounding used by `DataFrame.round`
(numpy rounding) before `astype(int)`. -/
def pyRound (q : Q) : Int :=
  let f := q.num.fdiv q.den
  let r2 := 2 * (q.num - f * q.den)
  if r2 < (q.den : Int) then f
  else if (q.den : Int) < r2 then f + 1
  else if f % 2 = 0 then f else f + 1

/-- `round(1)`: round half-to-even at one decimal place. -/
def round1 (q : Q) : Q := normQ (pyRound ⟨q.num * 10, q.den⟩) 10

/-- Insert a string into a sorted duplicate-free list, keeping it sorted and
duplicate-free. -/
def insSorted (s : String) : List String → List String
  | [] => [s]
  | t :: ts =>
      if strLe s t then (if s = t then t :: ts else s :: t :: ts)
      else t :: insSorted s ts

/-- Sorted list of the distinct values of `l`, modelling the sorted unique
index and column labels produced by pandas `groupby`/`pivot`. -/
def sortedDedup (l : List String) : List String := l.foldr insSorted []

/-- Word characters of the regex class `\w` (ASCII fragment): letters, digits
and underscore.  The phrase boundaries `\b` of the filter pattern are tested
against this class. -/
def isWordChar (c : Char) : Bool := c.isAlpha || c.isDigit || decide (c = '_')

/-- A position is a word boundary when the adjacent character (if any) is not
a word character; both phrase alternatives begin and end in word characters,
so `\b` reduces to this test. -/
def boundaryB : Option Char → Bool
  | none => true
  | some c => !isWordChar c

/-- The pattern `\b(first year|1st year)\b` matches (one alternative `p`) at
position `i` of `l`. -/
def phraseAt (l : List Char) (i : Nat) (p : List Char) : Bool :=
  boundaryB (l.take i).getLast? && decide ((l.drop i).take p.length = p) &&
    boundaryB (l.drop (i + p.length)).head?

/-- Model of `Series.str.contains(r"\b(first year|1st year)\b", case=False,
regex=True)` on one cell: `re.search` succeeds iff the pattern matches at some
position of the lowercased string. -/
def firstYearMatch (s : String) : Bool :=
  (List.range ((lowerStr s.data).length + 1)).any
    (fun i =>
      phraseAt (lowerStr s.data) i ("first year").data ||
      phraseAt (lowerStr s.data) i ("1st year").data)

/-- Spec-side reading (section 4.2 step 2 of the spec): the statistic label
contains, case-insensitively and as a whole-word phrase, "first year" or
"1st year"; stated as a decomposition of the lowercased text. -/
def SpecFirstYear (s : String) : Prop :=
  ∃ pre p post, (p = ("first year").data ∨ p = ("1st year").data) ∧
    lowerStr s.data = pre ++ p ++ post ∧
    boundaryB pre.getLast? = true ∧ boundaryB post.head? = true

/-- Test for the underscore character, the replacement target of the second
and third substitutions in `rename_header`. -/
def uChar (c : Char) : Bool := decide (c = '_')

/-- Replace every maximal run of characters satisfying `p` by a single
underscore; `inRun` records whether the previous character was part of such a
run.  With `p = specialChar` this is `re.sub(r"[\s,()]+", "_", col)`; with
`p = uChar` it is `re.sub(r"_+", "_", col)`. -/
def squashAux (p : Char → Bool) : Bool → List Char → List Char
  | _, [] => []
  | inRun, c :: cs =>
      if p c then (if inRun then squashAux p true cs else '_' :: squashAux p true cs)
      else c :: squashAux p false cs

/-- Remove a trailing run of underscores: `re.sub(r"_+$", "", col)`. -/
def stripTrailingU (l : List Char) : List Char := (l.reverse.dropWhile uChar).reverse

/-- The per-column transformation of `rename_header`: trim and lowercase, turn
runs of whitespace, commas and parentheses into single underscores, collapse
underscore runs, and drop a trailing underscore run. -/
def normalizeCol (s : String) : String :=
  String.mk (stripTrailingU (squashAux uChar false
    (squashAux specialChar false (lowerStr (stripL s.data)))))

/-- No two adjacent underscores occur in the list. -/
def noTwoU : List Char → Bool
  | a :: b :: t => (!(uChar a && uChar b)) && noTwoU (b :: t)
  | _ => true

/-- One observation row of the parsed dataset.  `value` is the result of
`pd.to_numeric(..., errors="coerce")` on the raw cell: `none` models NaN
(unparseable or missing), later filled with 0 by `.fillna(0)`. -/
structure Row where
  stat : String
  year : Int
  sex : String
  unit : String
  value : Option Q
deriving DecidableEq

/-- A pandas DataFrame of this pipeline: named columns plus rows. -/
structure DFrame where
  cols : List String
  rows : List Row
deriving DecidableEq

/-- A filtered and transformed row, after the filter, sex normalisation,
value coercion and year bucketing steps of `process_first_year_stats`. -/
structure ProcRow where
  yearRange : String
  sex : String
  unit : String
  value : Q
deriving DecidableEq

/-- Exact-match sex normalisation
`df["sex"].replace({"M": "Male", "F": "Female", "Both": "Both sexes"})`. -/
def sexReplace (s : String) : String :=
  if s = "M" then "Male"
  else if s = "F" then "Female"
  else if s = "Both" then "Both sexes"
  else s

/-- Five-year bucket label: `year_group = (year // 5) * 5` (Python floor
division) and `year_range = str(year_group) + "-" + str(year_group + 4)`. -/
def yearRangeOf (y : Int) : String :=
  toString (y.fdiv 5 * 5) ++ "-" ++ toString (y.fdiv 5 * 5 + 4)

/-- The row filter
`df[df["statistic label"].astype(str).str.contains(pattern, case=False, ...)]`. -/
def keepFirstYear (rows : List Row) : List Row :=
  rows.filter (fun r => firstYearMatch r.stat)

/-- Filter, sex normalisation, numeric coercion with NaN filled by 0, and
five-year bucketing, in source order. -/
def prepRows (rows : List Row) : List ProcRow :=
  (keepFirstYear rows).map
    (fun r => ⟨yearRangeOf r.year, sexReplace r.sex, r.unit, r.value.getD Q.zero⟩)

/-- Counts subset: `df[df["unit"].str.lower() == "number"]` (no strip). -/
def countsSub (l : List ProcRow) : List ProcRow :=
  l.filter (fun r => decide (strLower r.unit = "number"))

/-- Percentage subset:
`df[df["unit"].str.strip().str.lower().isin(["%", "percentage"])]`. -/
def percSub (l : List ProcRow) : List ProcRow :=
  l.filter (fun r => decide (canonCol r.unit = "%" ∨ canonCol r.unit = "percentage"))

/-- Group sum of `value` over the rows with the given `year_range` and `sex`
(`groupby(["year_range", "sex"])["value"].sum()`); `none` when the group is
empty, i.e. the pivot cell is NaN. -/
def aggSum (sub : List ProcRow) (yr sx : String) : Option Q :=
  let g := sub.filter (fun r => decide (r.yearRange = yr ∧ r.sex = sx))
  if g.isEmpty then none else some (qsum (g.map (fun r => r.value)))

/-- Group mean of `value` (`groupby(...)["value"].mean()`); `none` for the
missing pivot cells. -/
def aggMean (sub : List ProcRow) (yr sx : String) : Option Q :=
  let g := sub.filter (fun r => decide (r.yearRange = yr ∧ r.sex = sx))
  if g.isEmpty then none
  else some (Q.div (qsum (g.map (fun r => r.value))) ⟨(g.length : Int), 1⟩)

/-- A wide pivot table `summary.pivot(index="year_range", columns="sex",
values="value")`: sorted unique index labels, sorted unique column labels and
a grid of optional cells (NaN for absent groups). -/
structure Wide where
  index : List String
  sexes : List String
  cells : List (List (Option Q))
deriving DecidableEq

/-- Build the wide pivot of an aggregated subset. -/
def mkWide (agg : List ProcRow → String → String → Option Q) (sub : List ProcRow) : Wide :=
  ⟨sortedDedup (sub.map (fun r => r.yearRange)),
   sortedDedup (sub.map (fun r => r.sex)),
   (sortedDedup (sub.map (fun r => r.yearRange))).map
     (fun yr => (sortedDedup (sub.map (fun r => r.sex))).map (fun sx => agg sub yr sx))⟩

/-- `round(0).astype(int)` on one pivot row: fails (pandas raises
`Cannot convert non-finite values (NA or inf) to integer`) when any cell is
NaN. -/
def rowSome : List (Option Q) → Option (List Int)
  | [] => some []
  | none :: _ => none
  | some q :: t => (rowSome t).map (fun r => pyRound q :: r)

/-- `counts_wide.round(0).astype(int)` on the whole grid. -/
def intConvert : List (List (Option Q)) → Option (List (List Int))
  | [] => some []
  | r :: rs =>
      match rowSome r with
      | none => none
      | some ri => (intConvert rs).map (fun rest => ri :: rest)

/-- `perc_wide.fillna(0.0).round(1)` on one cell: a missing percentage cell
becomes 0.0, then the cell is rounded to one decimal place. -/
def fillRound (o : Option Q) : Q := round1 (o.getD Q.zero)

/-- Select the row of a wide table at a given index label. -/
def lookupRow {α : Type} : List String → List (List α) → String → List α
  | [], _, _ => []
  | _, [], _ => []
  | i :: is, r :: rs, yr => if i = yr then r else lookupRow is rs yr

/-- The merged summary returned by `process_first_year_stats`: the inner join
of the counts and percentage pivots on `year_range`, after `reset_index()`. -/
structure Summary where
  yearRanges : List String
  countCols : List String
  percCols : List String
  countCells : List (List Int)
  percCells : List (List Q)
deriving DecidableEq

/-- A single-quote character (code point 39), used to model Python `repr`
quoting inside error messages. -/
def quoteMark : String := String.mk [Char.ofNat 39]

/-- Python `repr` of a short string as it appears in messages (quotes added). -/
def pyQuote (s : String) : String := quoteMark ++ s ++ quoteMark

/-- Python `repr` of a list of strings, as interpolated by the f-string of the
schema error message. -/
def pyListRepr (l : List String) : String :=
  "[" ++ String.intercalate ", " (l.map pyQuote) ++ "]"

/-- The message `f"Schema error: missing mandatory columns {missing_cols}"`. -/
def schemaErr (missing : List String) : String :=
  "Schema error: missing mandatory columns " ++ pyListRepr missing

/-- The message `f"Error transforming dataset: {e}"` for a `KeyError` on a
missing column (whose `str` is the quoted column name). -/
def keyErr (c : String) : String := "Error transforming dataset: " ++ pyQuote c

/-- The message `f"Error transforming dataset: {e}"` for the `ValueError`
raised by `astype(int)` on a pivot containing NaN. -/
def intErr : String :=
  "Error transforming dataset: Cannot convert non-finite values (NA or inf) to integer"

/-- The mandatory columns checked by `load_dataset`. -/
def mandatoryCols : List String := ["statistic label", "year", "sex", "unit", "value"]

/-- `missing_cols = [col for col in mandatory_cols if col not in cols_lower]`
where `cols_lower = [col.strip().lower() for col in df.columns]`. -/
def missingColsOf (cols : List String) : List String :=
  mandatoryCols.filter (fun c => decide (c ∉ cols.map canonCol))

/-- `load_dataset` after a successful retrieval and parse, applied to the
parsed table: validate the mandatory columns and return either the table or a
schema error (the `(result, error)` pair convention of the source). -/
def load_dataset (df : DFrame) : Option DFrame × Option String :=
  if missingColsOf df.cols = [] then (some df, none)
  else (none, some (schemaErr (missingColsOf df.cols)))

/-- The first column whose access in `process_first_year_stats` raises
`KeyError`, in source access order: the filter reads `statistic label`, then
`sex`, `value`, `year` and `unit` are read. -/
def firstMissingKey (cols : List String) : Option String :=
  (["statistic label", "sex", "value", "year", "unit"]).find? (fun c => decide (c ∉ cols))

/-- The in-place column canonicalisation
`df.columns = df.columns.str.strip().str.lower()`, the first statement of
`process_first_year_stats`, which mutates the caller's DataFrame. -/
def canonDF (df : DFrame) : DFrame := ⟨df.cols.map canonCol, df.rows⟩

/-- Body of `process_first_year_stats` after the column canonicalisation:
filter, normalise, bucket, split by unit, aggregate, pivot, convert and merge;
any failure is caught and returned as `f"Error transforming dataset: {e}"`. -/
def processBody (df : DFrame) : Except String Summary :=
  match firstMissingKey df.cols with
  | some c => Except.error (keyErr c)
  | none =>
      let pr := prepRows df.rows
      let cw := mkWide aggSum (countsSub pr)
      let pw := mkWide aggMean (percSub pr)
      match intConvert cw.cells with
      | none => Except.error intErr
      | some ci =>
          let pf := pw.cells.map (fun row => row.map fillRound)
          let idx := cw.index.filter (fun yr => decide (yr ∈ pw.index))
          Except.ok ⟨idx,
            cw.sexes.map (fun sx => sx ++ "_count"),
            pw.sexes.map (fun sx => sx ++ "_percent"),
            idx.map (fun yr => lookupRow cw.index ci yr),
            idx.map (fun yr => lookupRow pw.index pf yr)⟩

/-- `process_first_year_stats`: the first component of the result is the
caller's DataFrame after the call (its column names have been rewritten in
place), the second is the returned `(result, error)` outcome. -/
def process_first_year_stats (df : DFrame) : DFrame × Except String Summary :=
  (canonDF df, processBody (canonDF df))

/-- `rename_header`: `None` input raises and is reported; otherwise every
column name is rewritten by the three regex substitutions. -/
def rename_header (odf : Option DFrame) : Option DFrame × Option String :=
  match odf with
  | none => (none, some "Error renaming headers: No DataFrame provided for transformation.")
  | some df => (some ⟨df.cols.map normalizeCol, df.rows⟩, none)

/-- Environment of one `save_outputs` call: whether each destination is
writable and the exception text produced when it is not. -/
structure SaveEnv where
  csvOk : Bool
  pqOk : Bool
  csvExc : String
  pqExc : String
deriving DecidableEq

/-- Observable outcome of `save_outputs`: which files were created and the log
messages emitted.  The function is total: exceptions are caught per format and
never propagate. -/
structure SaveOutcome where
  csvWritten : Bool
  pqWritten : Bool
  logs : List String
deriving DecidableEq

/-- `save_outputs`: the CSV write and the Parquet write are attempted
independently, each in its own try/except that logs success or failure. -/
def save_outputs (df : DFrame) (csvPath parquetPath : String) (env : SaveEnv) : SaveOutcome :=
  let csvStep :=
    if env.csvOk then (true, "Data saved to CSV: " ++ csvPath)
    else (false, "Error saving CSV to " ++ csvPath ++ ": " ++ env.csvExc)
  let pqStep :=
    if env.pqOk then (true, "Data saved to Parquet: " ++ parquetPath)
    else (false, "Error saving Parquet to " ++ parquetPath ++ ": " ++ env.pqExc)
  ⟨csvStep.1, pqStep.1, [csvStep.2, pqStep.2]⟩

/-- Substring test (used to state that a log message mentions "CSV"). -/
def containsStr (hay needle : String) : Bool :=
  (List.range (hay.data.length + 1)).any
    (fun i => decide ((hay.data.drop i).take needle.data.length = needle.data))

/-- The two-row input of the mixed-units aggregation test: two first-year rows
for (2010, Male), one count of 100 and one percentage of 50. -/
def dfC1 : DFrame :=
  ⟨["statistic label", "year", "sex", "unit", "value"],
   [⟨"First Year Data", 2010, "Male", "Number", some ⟨100, 1⟩⟩,
    ⟨"First Year Data", 2010, "Male", "%", some ⟨50, 1⟩⟩]⟩

/-- An input whose percentage pivot has a missing cell (no Female percentage
in 2010-2014, no Male percentage in 2015-2019) while the counts pivot is
complete. -/
def dfPercHole : DFrame :=
  ⟨["statistic label", "year", "sex", "unit", "value"],
   [⟨"First Year data", 2010, "Male", "Number", some ⟨10, 1⟩⟩,
    ⟨"First Year data", 2015, "Male", "Number", some ⟨20, 1⟩⟩,
    ⟨"First Year data", 2010, "Male", "%", some ⟨50, 1⟩⟩,
    ⟨"First Year data", 2015, "Female", "%", some ⟨60, 1⟩⟩]⟩

/-- An input whose counts pivot has missing cells: Male appears only in
2010-2014 and Female only in 2015-2019. -/
def dfCountHole : DFrame :=
  ⟨["statistic label", "year", "sex", "unit", "value"],
   [⟨"First Year data", 2010, "Male", "Number", some ⟨10, 1⟩⟩,
    ⟨"First Year data", 2015, "Female", "Number", some ⟨20, 1⟩⟩]⟩

/-- The schema-test input: a parsed table missing the `sex` column. -/
def dfNoSex : DFrame := ⟨["statistic label", "year", "unit", "value"], []⟩

/-- A table whose single column canonicalises to `year`; every mandatory
working column of the aggregation is absent. -/
def dfYearOnly : DFrame := ⟨[" YEAR "], []⟩

/-- A filtered row whose unit is `" number "` (whitespace around it). -/
def rNum : ProcRow := ⟨"2010-2014", "Male", " number ", ⟨1, 1⟩⟩

/-- The header-normalisation example columns of the test suite. -/
def exCols : List String := ["Col   1", " Col(2)", "Col,,,,3", "col 4", "COL  5"]

theorem lowerChar_toNat_of (c : Char) (h : 65 ≤ c.toNat ∧ c.toNat ≤ 90) :
    (lowerChar c).toNat = c.toNat + 32 := by
  unfold lowerChar
  rw [dif_pos h]
  rfl

theorem lowerChar_of_not (c : Char) (h : ¬(65 ≤ c.toNat ∧ c.toNat ≤ 90)) :
    lowerChar c = c := by
  unfold lowerChar
  rw [dif_neg h]

theorem lowerChar_not_upper (c : Char) :
    ¬(65 ≤ (lowerChar c).toNat ∧ (lowerChar c).toNat ≤ 90) := by
  by_cases h : 65 ≤ c.toNat ∧ c.toNat ≤ 90
  · rw [lowerChar_toNat_of c h]
    omega
  · rw [lowerChar_of_not c h]
    exact h

theorem lowerChar_idem (c : Char) : lowerChar (lowerChar c) = lowerChar c :=
  lowerChar_of_not (lowerChar c) (lowerChar_not_upper c)

theorem mem_insSorted (a s : String) (l : List String) :
    a ∈ insSorted s l ↔ a = s ∨ a ∈ l := by
  induction l with
  | nil => simp [insSorted]
  | cons t ts ih =>
      by_cases h1 : strLe s t
      · by_cases h2 : s = t
        · subst h2
          simp [insSorted, h1]
        · simp [insSorted, h1, h2]
      · simp [insSorted, h1, ih]
        tauto

theorem mem_sortedDedup (a : String) (l : List String) :
    a ∈ sortedDedup l ↔ a ∈ l := by
  induction l with
  | nil => simp [sortedDedup]
  | cons x xs ih =>
      show a ∈ insSorted x (sortedDedup xs) ↔ _
      rw [mem_insSorted]
      rw [ih]
      simp

theorem takeLenApp (a b : List Char) : (a ++ b).take a.length = a := by
  induction a with
  | nil => simp
  | cons c cs ih => simp [ih]

theorem dropLenApp (a b : List Char) : (a ++ b).drop a.length = b := by
  induction a with
  | nil => simp
  | cons c cs ih => simp [ih]

theorem phraseAt_iff (l p : List Char) (i : Nat) (hi : i ≤ l.length) :
    phraseAt l i p = true ↔
      ∃ pre post, l = pre ++ p ++ post ∧ pre.length = i ∧
        boundaryB pre.getLast? = true ∧ boundaryB post.head? = true := by
  constructor
  · intro h
    unfold phraseAt at h
    rw [Bool.and_eq_true, Bool.and_eq_true] at h
    obtain ⟨⟨h1, h2⟩, h3⟩ := h
    rw [decide_eq_true_eq] at h2
    refine ⟨l.take i, l.drop (i + p.length), ?_, ?_, h1, h3⟩
    · have hd : l.drop i = p ++ l.drop (i + p.length) := by
        conv_lhs => rw [← List.take_append_drop p.length (l.drop i)]
        rw [h2, List.drop_drop]
      conv_lhs => rw [← List.take_append_drop i l]
      rw [hd, ← List.append_assoc]
    · rw [List.length_take]
      omega
  · rintro ⟨pre, post, hl, hlen, hb1, hb2⟩
    subst hl
    subst hlen
    unfold phraseAt
    rw [Bool.and_eq_true, Bool.and_eq_true]
    refine ⟨⟨?_, ?_⟩, ?_⟩
    · rw [List.append_assoc, takeLenApp]
      exact hb1
    · rw [decide_eq_true_eq, List.append_assoc, dropLenApp, takeLenApp]
    · have hlen2 : (pre ++ p).length = pre.length + p.length := List.length_append pre p
      rw [← hlen2, dropLenApp]
      exact hb2

theorem firstYearMatch_iff (s : String) :
    firstYearMatch s = true ↔ SpecFirstYear s := by
  unfold firstYearMatch SpecFirstYear
  rw [List.any_eq_true]
  constructor
  · rintro ⟨i, hi, hp⟩
    rw [List.mem_range] at hi
    have hi2 : i ≤ (lowerStr s.data).length := by omega
    rw [Bool.or_eq_true] at hp
    rcases hp with hp | hp
    · obtain ⟨pre, post, hl, _, hb1, hb2⟩ := (phraseAt_iff _ _ i hi2).mp hp
      exact ⟨pre, _, post, Or.inl rfl, hl, hb1, hb2⟩
    · obtain ⟨pre, post, hl, _, hb1, hb2⟩ := (phraseAt_iff _ _ i hi2).mp hp
      exact ⟨pre, _, post, Or.inr rfl, hl, hb1, hb2⟩
  · rintro ⟨pre, p, post, hp, hl, hb1, hb2⟩
    refine ⟨pre.length, ?_, ?_⟩
    · rw [List.mem_range, hl]
      simp [List.length_append]
      omega
    · have hple : pre.length ≤ (lowerStr s.data).length := by
        rw [hl]
        simp [List.length_append]
      rw [Bool.or_eq_true]
      rcases hp with hp | hp
      · subst hp
        exact Or.inl ((phraseAt_iff _ _ _ hple).mpr ⟨pre, post, hl, rfl, hb1, hb2⟩)
      · subst hp
        exact Or.inr ((phraseAt_iff _ _ _ hple).mpr ⟨pre, post, hl, rfl, hb1, hb2⟩)

theorem mem_squashAux (p : Char → Bool) (c : Char) :
    ∀ (l : List Char) (b : Bool), c ∈ squashAux p b l → c = '_' ∨ (c ∈ l ∧ p c = false) := by
  intro l
  induction l with
  | nil =>
      intro b h
      simp [squashAux] at h
  | cons d ds ih =>
      intro b h
      cases hd : p d
      · rw [squashAux, hd] at h
        simp only [Bool.false_eq_true, if_false, List.mem_cons] at h
        rcases h with h | h
        · rw [h]
          exact Or.inr ⟨List.mem_cons_self d ds, hd⟩
        · rcases ih false h with h2 | ⟨h2, h3⟩
          · exact Or.inl h2
          · exact Or.inr ⟨List.mem_cons_of_mem d h2, h3⟩
      · rw [squashAux, hd] at h
        simp only [if_true] at h
        have hrec : c ∈ squashAux p true ds ∨ c = '_' := by
          cases b with
          | true => exact Or.inl h
          | false =>
              rcases List.mem_cons.mp h with h2 | h2
              · exact Or.inr h2
              · exact Or.inl h2
        rcases hrec with h2 | h2
        · rcases ih true h2 with h3 | ⟨h3, h4⟩
          · exact Or.inl h3
          · exact Or.inr ⟨List.mem_cons_of_mem d h3, h4⟩
        · exact Or.inl h2

theorem squashAux_eq_self (p : Char → Bool) :
    ∀ l : List Char, (∀ c ∈ l, p c = false) → squashAux p false l = l := by
  intro l
  induction l with
  | nil => intro _; rfl
  | cons c cs ih =>
      intro h
      rw [squashAux, h c (List.mem_cons_self c cs)]
      simp only [Bool.false_eq_true, if_false, List.cons.injEq, true_and]
      exact ih (fun d hd => h d (List.mem_cons_of_mem c hd))

theorem head_squashU_true :
    ∀ (l : List Char) (c : Char), (squashAux uChar true l).head? = some c → uChar c = false := by
  intro l
  induction l with
  | nil =>
      intro c h
      simp [squashAux] at h
  | cons d ds ih =>
      intro c h
      cases hd : uChar d
      · rw [squashAux, hd] at h
        simp only [Bool.false_eq_true, if_false, List.head?_cons, Option.some.injEq] at h
        subst h
        exact hd
      · rw [squashAux, hd] at h
        simp only [if_true] at h
        exact ih c h

theorem noTwoU_of_cons (c : Char) (cs : List Char) (h : noTwoU (c :: cs) = true) :
    noTwoU cs = true := by
  cases cs with
  | nil => rfl
  | cons d ds =>
      rw [noTwoU, Bool.and_eq_true] at h
      exact h.2

theorem noTwoU_squashU :
    ∀ (l : List Char) (b : Bool), noTwoU (squashAux uChar b l) = true := by
  intro l
  induction l with
  | nil => intro b; rfl
  | cons c cs ih =>
      intro b
      cases hc : uChar c
      · rw [squashAux, hc]
        simp only [Bool.false_eq_true, if_false]
        cases heq : squashAux uChar false cs with
        | nil => rfl
        | cons d ds =>
            have h2 : noTwoU (d :: ds) = true := by
              rw [← heq]
              exact ih false
            simp [noTwoU, hc, h2]
      · rw [squashAux, hc]
        simp only [if_true]
        cases b with
        | true => exact ih true
        | false =>
            cases heq : squashAux uChar true cs with
            | nil => rfl
            | cons d ds =>
                have hd : uChar d = false := head_squashU_true cs d (by rw [heq]; rfl)
                have h2 : noTwoU (d :: ds) = true := by
                  rw [← heq]
                  exact ih true
                simp [noTwoU, hd, h2]

theorem noTwoU_append (l₁ l₂ : List Char) (h : noTwoU (l₁ ++ l₂) = true) :
    noTwoU l₁ = true := by
  induction l₁ with
  | nil => rfl
  | cons a t ih =>
      cases t with
      | nil => rfl
      | cons b t2 =>
          rw [List.cons_append, List.cons_append, noTwoU, Bool.and_eq_true] at h
          rw [noTwoU, Bool.and_eq_true]
          refine ⟨h.1, ih ?_⟩
          rw [List.cons_append]
          exact h.2

theorem squashU_eq_self_of_noTwoU :
    ∀ l : List Char, noTwoU l = true → squashAux uChar false l = l := by
  intro l
  induction l with
  | nil => intro _; rfl
  | cons c cs ih =>
      intro h
      cases hc : uChar c
      · rw [squashAux, hc]
        simp only [Bool.false_eq_true, if_false, List.cons.injEq, true_and]
        exact ih (noTwoU_of_cons c cs h)
      · have hc' : c = '_' := of_decide_eq_true hc
        rw [squashAux, hc]
        simp only [if_true]
        cases cs with
        | nil =>
            rw [hc']
            rfl
        | cons d ds =>
            rw [noTwoU, Bool.and_eq_true] at h
            obtain ⟨h1, h2⟩ := h
            rw [hc] at h1
            have hd : uChar d = false := by
              cases hdd : uChar d
              · rfl
              · rw [hdd] at h1
                simp at h1
            have h3 := ih h2
            rw [squashAux, hd] at h3
            simp only [Bool.false_eq_true, if_false, List.cons.injEq, true_and] at h3
            rw [squashAux, hd]
            simp only [Bool.false_eq_true, if_false]
            rw [hc', h3]

theorem dropWhile_eq_self_of (p : Char → Bool) (l : List Char)
    (h : ∀ c ∈ l, p c = false) : l.dropWhile p = l := by
  cases l with
  | nil => rfl
  | cons c cs =>
      rw [List.dropWhile_cons, h c (List.mem_cons_self c cs)]
      simp

theorem mapIdOn (f : Char → Char) :
    ∀ l : List Char, (∀ c ∈ l, f c = c) → l.map f = l := by
  intro l
  induction l with
  | nil => intro _; rfl
  | cons c cs ih =>
      intro h
      rw [List.map_cons, h c (List.mem_cons_self c cs),
        ih (fun d hd => h d (List.mem_cons_of_mem c hd))]

theorem stripTrailingU_self_append (l : List Char) :
    l = stripTrailingU l ++ (l.reverse.takeWhile uChar).reverse := by
  unfold stripTrailingU
  conv_lhs => rw [← l.reverse_reverse, ← List.takeWhile_append_dropWhile (p := uChar) (l := l.reverse)]
  rw [List.reverse_append]

theorem mem_stripTrailingU (c : Char) (l : List Char) (h : c ∈ stripTrailingU l) : c ∈ l := by
  have h2 := stripTrailingU_self_append l
  rw [h2]
  exact List.mem_append_left _ h

theorem head_dropWhile_not (p : Char → Bool) :
    ∀ (l : List Char) (c : Char), (l.dropWhile p).head? = some c → p c = false := by
  intro l
  induction l with
  | nil =>
      intro c h
      simp [List.dropWhile] at h
  | cons d ds ih =>
      intro c h
      cases hd : p d
      · rw [List.dropWhile_cons, hd] at h
        simp only [Bool.false_eq_true, if_false, List.head?_cons, Option.some.injEq] at h
        subst h
        exact hd
      · rw [List.dropWhile_cons, hd] at h
        simp only [if_true] at h
        exact ih c h

theorem getLast_stripTrailingU (l : List Char) (c : Char)
    (h : (stripTrailingU l).getLast? = some c) : uChar c = false := by
  unfold stripTrailingU at h
  rw [List.getLast?_reverse] at h
  exact head_dropWhile_not uChar l.reverse c h

theorem stripTrailingU_eq_self (l : List Char)
    (h : ∀ c, l.getLast? = some c → uChar c = false) : stripTrailingU l = l := by
  unfold stripTrailingU
  cases hr : l.reverse with
  | nil =>
      rw [List.dropWhile_nil]
      rw [← hr, l.reverse_reverse]
  | cons c t =>
      have hc : uChar c = false := by
        apply h
        rw [← List.head?_reverse, hr]
        rfl
      rw [List.dropWhile_cons, hc]
      simp only [Bool.false_eq_true, if_false]
      rw [← hr, l.reverse_reverse]

theorem stripL_eq_self (l : List Char) (h : ∀ c ∈ l, wsChar c = false) : stripL l = l := by
  unfold stripL
  rw [dropWhile_eq_self_of wsChar l h]
  rw [dropWhile_eq_self_of wsChar l.reverse (fun c hc => h c (List.mem_reverse.mp hc))]
  exact l.reverse_reverse

theorem normalizeCol_fix (t : List Char)
    (h1 : ∀ c ∈ t, specialChar c = false)
    (h2 : ∀ c ∈ t, lowerChar c = c)
    (h3 : noTwoU t = true)
    (h4 : ∀ c, t.getLast? = some c → uChar c = false) :
    normalizeCol (String.mk t) = String.mk t := by
  have hws : ∀ c ∈ t, wsChar c = false := by
    intro c hc
    have hsp := h1 c hc
    cases hw : wsChar c
    · rfl
    · unfold specialChar at hsp
      rw [hw] at hsp
      simp at hsp
  show String.mk (stripTrailingU (squashAux uChar false
    (squashAux specialChar false (lowerStr (stripL t))))) = String.mk t
  have hl : lowerStr t = t := mapIdOn lowerChar t h2
  rw [stripL_eq_self t hws, hl, squashAux_eq_self specialChar t h1,
    squashU_eq_self_of_noTwoU t h3, stripTrailingU_eq_self t h4]

theorem normalizeCol_idem (s : String) : normalizeCol (normalizeCol s) = normalizeCol s := by
  have h1 : ∀ c ∈ (normalizeCol s).data, specialChar c = false := by
    intro c hc
    have hc2 := mem_stripTrailingU c _ hc
    rcases mem_squashAux uChar c _ false hc2 with h | ⟨h, _⟩
    · rw [h]
      decide
    · rcases mem_squashAux specialChar c _ false h with h2 | ⟨_, h3⟩
      · rw [h2]
        decide
      · exact h3
  have h2 : ∀ c ∈ (normalizeCol s).data, lowerChar c = c := by
    intro c hc
    have hc2 := mem_stripTrailingU c _ hc
    rcases mem_squashAux uChar c _ false hc2 with h | ⟨h, _⟩
    · rw [h]
      decide
    · rcases mem_squashAux specialChar c _ false h with h3 | ⟨h3, _⟩
      · rw [h3]
        decide
      · rcases List.mem_map.mp h3 with ⟨c0, _, hc0⟩
        rw [← hc0]
        exact lowerChar_idem c0
  have h3 : noTwoU (normalizeCol s).data = true := by
    show noTwoU (stripTrailingU (squashAux uChar false
      (squashAux specialChar false (lowerStr (stripL s.data))))) = true
    apply noTwoU_append _ ((squashAux uChar false
      (squashAux specialChar false (lowerStr (stripL s.data)))).reverse.takeWhile uChar).reverse
    rw [← stripTrailingU_self_append]
    exact noTwoU_squashU _ false
  have h4 : ∀ c, (normalizeCol s).data.getLast? = some c → uChar c = false :=
    fun c h => getLast_stripTrailingU _ c h
  exact normalizeCol_fix ((normalizeCol s).data) h1 h2 h3 h4

theorem mem_mkWide_index (agg : List ProcRow → String → String → Option Q)
    (sub : List ProcRow) (yr : String) :
    yr ∈ (mkWide agg sub).index ↔ ∃ r ∈ sub, r.yearRange = yr := by
  show yr ∈ sortedDedup (sub.map (fun r => r.yearRange)) ↔ _
  rw [mem_sortedDedup, List.mem_map]

theorem rowSome_eq_none (row : List (Option Q)) (h : none ∈ row) : rowSome row = none := by
  induction row with
  | nil => simp at h
  | cons o t ih =>
      cases o with
      | none => rfl
      | some q =>
          rcases List.mem_cons.mp h with h2 | h2
          · simp at h2
          · rw [rowSome, ih h2]
            rfl

theorem intConvert_eq_none (cells : List (List (Option Q))) (row : List (Option Q))
    (hrow : row ∈ cells) (hnone : rowSome row = none) : intConvert cells = none := by
  induction cells with
  | nil => simp at hrow
  | cons r rs ih =>
      rcases List.mem_cons.mp hrow with h2 | h2
      · rw [h2] at hnone
        rw [intConvert, hnone]
      · cases hr : rowSome r with
        | none => rw [intConvert, hr]
        | some ri =>
            rw [intConvert, hr, ih h2]
            rfl

/-- C1: on an input whose only first-year rows are the two (2010, Male) rows
with `unit=Number, value=100` and `unit=%, value=50`,
`process_first_year_stats` succeeds with a single output row `2010-2014`
whose `Male_count` is 100 (counts summed) and whose `Male_percent` is 50.0
(percentages averaged), per (`year_range`, `sex`) group. -/
theorem claim_C1 :
    (process_first_year_stats dfC1).2 =
      Except.ok ⟨["2010-2014"], ["Male_count"], ["Male_percent"], [[100]], [[⟨50, 1⟩]]⟩ := by
  rfl

/-- C2: whenever `process_first_year_stats` succeeds, a `year_range` bucket is
in the output iff it is in the index of both the counts pivot and the
percentage pivot (inner join); in particular a bucket with no percentage rows
is absent from the result. -/
theorem claim_C2 (df : DFrame) (s : Summary)
    (hok : (process_first_year_stats df).2 = Except.ok s) (yr : String) :
    (yr ∈ s.yearRanges ↔
      yr ∈ (mkWide aggSum (countsSub (prepRows df.rows))).index ∧
      yr ∈ (mkWide aggMean (percSub (prepRows df.rows))).index) ∧
    ((∀ r ∈ percSub (prepRows df.rows), r.yearRange ≠ yr) → yr ∉ s.yearRanges) := by
  have hbody : processBody (canonDF df) = Except.ok s := hok
  rw [processBody] at hbody
  simp only [canonDF] at hbody
  cases hk : firstMissingKey (df.cols.map canonCol) with
  | some c =>
      rw [hk] at hbody
      simp at hbody
  | none =>
      rw [hk] at hbody
      simp only [] at hbody
      cases hic : intConvert (mkWide aggSum (countsSub (prepRows df.rows))).cells with
      | none =>
          rw [hic] at hbody
          simp at hbody
      | some ci =>
          rw [hic] at hbody
          simp only [Except.ok.injEq] at hbody
          subst hbody
          constructor
          · show yr ∈ (mkWide aggSum (countsSub (prepRows df.rows))).index.filter
              (fun yr2 => decide (yr2 ∈ (mkWide aggMean (percSub (prepRows df.rows))).index)) ↔ _
            rw [List.mem_filter, decide_eq_true_eq]
          · intro hnone hmem
            have hmem2 : yr ∈ (mkWide aggSum (countsSub (prepRows df.rows))).index.filter
                (fun yr2 => decide (yr2 ∈ (mkWide aggMean (percSub (prepRows df.rows))).index)) := hmem
            rw [List.mem_filter, decide_eq_true_eq] at hmem2
            rcases (mem_mkWide_index aggMean _ yr).mp hmem2.2 with ⟨r, hr, hry⟩
            exact hnone r hr hry

theorem claim_C2_witness :
    (("2010-2014" ∈
        (⟨["2010-2014"], ["Male_count"], ["Male_percent"], [[100]], [[⟨50, 1⟩]]⟩ : Summary).yearRanges ↔
      "2010-2014" ∈ (mkWide aggSum (countsSub (prepRows dfC1.rows))).index ∧
      "2010-2014" ∈ (mkWide aggMean (percSub (prepRows dfC1.rows))).index) ∧
    ((∀ r ∈ percSub (prepRows dfC1.rows), r.yearRange ≠ "2010-2014") →
      "2010-2014" ∉
        (⟨["2010-2014"], ["Male_count"], ["Male_percent"], [[100]], [[⟨50, 1⟩]]⟩ : Summary).yearRanges)) :=
  claim_C2 dfC1 ⟨["2010-2014"], ["Male_count"], ["Male_percent"], [[100]], [[⟨50, 1⟩]]⟩ rfl "2010-2014"

/-- C3: the filter step keeps exactly the rows whose statistic label contains
"first year" or "1st year" as a case-insensitive whole-word phrase
(`SpecFirstYear`), and the literal label "FIRST" does not match, so such a row
is dropped before any aggregation and reaches no output. -/
theorem claim_C3 :
    (∀ (rows : List Row) (r : Row),
        r ∈ keepFirstYear rows ↔ r ∈ rows ∧ SpecFirstYear r.stat) ∧
    firstYearMatch "FIRST" = false := by
  constructor
  · intro rows r
    unfold keepFirstYear
    rw [List.mem_filter]
    rw [firstYearMatch_iff]
  · decide

/-- C4: `rename_header` is idempotent on every table (two applications give
the same table as one), and on the example columns it produces
`col_1 ... col_5`. -/
theorem claim_C4 :
    (∀ df : DFrame,
        (rename_header ((rename_header (some df)).1)).1 = (rename_header (some df)).1) ∧
    (rename_header (some ⟨exCols, []⟩)).1 =
      some ⟨["col_1", "col_2", "col_3", "col_4", "col_5"], []⟩ := by
  constructor
  · intro df
    have hmaps : (df.cols.map normalizeCol).map normalizeCol = df.cols.map normalizeCol := by
      rw [List.map_map]
      exact List.map_congr_left (fun a _ => normalizeCol_idem a)
    show (some (⟨(df.cols.map normalizeCol).map normalizeCol, df.rows⟩ : DFrame) : Option DFrame) =
      some ⟨df.cols.map normalizeCol, df.rows⟩
    rw [hmaps]
  · rfl

/-- C5: whenever the canonicalised column names of a parsed table miss at
least one mandatory column, `load_dataset` returns no table and the schema
error message listing exactly the missing columns. -/
theorem claim_C5 (df : DFrame) (h : missingColsOf df.cols ≠ []) :
    load_dataset df = (none, some (schemaErr (missingColsOf df.cols))) := by
  unfold load_dataset
  rw [if_neg h]

theorem claim_C5_witness :
    missingColsOf dfNoSex.cols ≠ [] ∧
      load_dataset dfNoSex = (none, some (schemaErr (missingColsOf dfNoSex.cols))) :=
  ⟨by decide, claim_C5 dfNoSex (by decide)⟩

/-- C6: a filtered row is in the counts subset iff lowercasing its unit
(without trimming) gives "number", and in the percentage subset iff trimming
then lowercasing gives "%" or "percentage"; the unit `" number "` satisfies
neither test, so such a row is in neither subset and is dropped. -/
theorem claim_C6 (l : List ProcRow) (r : ProcRow) :
    (r ∈ countsSub l ↔ r ∈ l ∧ strLower r.unit = "number") ∧
    (r ∈ percSub l ↔ r ∈ l ∧ (canonCol r.unit = "%" ∨ canonCol r.unit = "percentage")) ∧
    (r.unit = " number " → r ∉ countsSub l ∧ r ∉ percSub l) := by
  have hA : r ∈ countsSub l ↔ r ∈ l ∧ strLower r.unit = "number" := by
    unfold countsSub
    rw [List.mem_filter, decide_eq_true_eq]
  have hB : r ∈ percSub l ↔ r ∈ l ∧ (canonCol r.unit = "%" ∨ canonCol r.unit = "percentage") := by
    unfold percSub
    rw [List.mem_filter, decide_eq_true_eq]
  refine ⟨hA, hB, fun hu => ⟨?_, ?_⟩⟩
  · intro hmem
    have heq := (hA.mp hmem).2
    rw [hu] at heq
    exact absurd heq (by decide)
  · intro hmem
    have heq := (hB.mp hmem).2
    rw [hu] at heq
    rcases heq with h2 | h2
    · exact absurd h2 (by decide)
    · exact absurd h2 (by decide)

theorem claim_C6_witness : rNum ∉ countsSub [rNum] ∧ rNum ∉ percSub [rNum] :=
  (claim_C6 [rNum] rNum).2.2 rfl

theorem containsStr_csv (tail : String) :
    containsStr ("Error saving CSV to " ++ tail) "CSV" = true := by
  unfold containsStr
  rw [List.any_eq_true]
  have hdata : ("Error saving CSV to " ++ tail).data =
      ("Error saving CSV to ").data ++ tail.data := String.data_append _ _
  refine ⟨13, ?_, ?_⟩
  · rw [List.mem_range, hdata, List.length_append]
    have : ("Error saving CSV to ").data.length = 20 := by decide
    omega
  · rw [decide_eq_true_eq, hdata,
      List.drop_append_of_le_length (by decide),
      List.take_append_of_le_length (by decide)]
    decide

/-- C7: the two writes of `save_outputs` are independent: for every table,
paths and write environment, the Parquet file is created iff its destination
is writable irrespective of the CSV outcome and vice versa, and when the CSV
write fails an error log mentioning "CSV" is emitted; the function is total,
so no exception propagates. -/
theorem claim_C7 (df : DFrame) (csvPath parquetPath : String) (env : SaveEnv) :
    (save_outputs df csvPath parquetPath env).pqWritten = env.pqOk ∧
    (save_outputs df csvPath parquetPath env).csvWritten = env.csvOk ∧
    (env.csvOk = false →
      ∃ m ∈ (save_outputs df csvPath parquetPath env).logs, containsStr m "CSV" = true) := by
  obtain ⟨co, po, ce, pe⟩ := env
  cases co <;> cases po <;>
    refine ⟨rfl, rfl, ?_⟩ <;> intro h
  · refine ⟨"Error saving CSV to " ++ csvPath ++ ": " ++ ce, List.mem_cons_self _ _, ?_⟩
    rw [String.append_assoc, String.append_assoc]
    exact containsStr_csv _
  · refine ⟨"Error saving CSV to " ++ csvPath ++ ": " ++ ce, List.mem_cons_self _ _, ?_⟩
    rw [String.append_assoc, String.append_assoc]
    exact containsStr_csv _
  · simp at h
  · simp at h

theorem claim_C7_witness :
    (save_outputs ⟨[], []⟩ "result.csv" "result.parquet" ⟨false, true, "unwritable", ""⟩).pqWritten
        = true ∧
    (save_outputs ⟨[], []⟩ "result.csv" "result.parquet" ⟨false, true, "unwritable", ""⟩).csvWritten
        = false ∧
    ∃ m ∈ (save_outputs ⟨[], []⟩ "result.csv" "result.parquet"
        ⟨false, true, "unwritable", ""⟩).logs, containsStr m "CSV" = true := by
  obtain ⟨h1, h2, h3⟩ :=
    claim_C7 ⟨[], []⟩ "result.csv" "result.parquet" ⟨false, true, "unwritable", ""⟩
  exact ⟨h1, h2, h3 rfl⟩

/-- C8: `rename_header` on a table with zero columns returns the table
unchanged with no error. -/
theorem claim_C8 (rows : List Row) :
    rename_header (some ⟨[], rows⟩) = (some ⟨[], rows⟩, none) := rfl

/-- C9: if the working columns are present and some (bucket, sex) cell of the
counts pivot is missing (an observed sex with no counts row for an observed
`year_range`), the whole call fails with the `astype(int)` transformation
error — missing count cells are not filled before the integer conversion;
missing percentage cells, by contrast, are filled with 0.0, as the concrete
run on `dfPercHole` (whose output contains 0-valued percentage cells) shows. -/
theorem claim_C9 :
    (∀ df : DFrame,
        firstMissingKey (df.cols.map canonCol) = none →
        (∃ yr ∈ (mkWide aggSum (countsSub (prepRows df.rows))).index,
         ∃ sx ∈ (mkWide aggSum (countsSub (prepRows df.rows))).sexes,
           aggSum (countsSub (prepRows df.rows)) yr sx = none) →
        (process_first_year_stats df).2 = Except.error intErr) ∧
    (process_first_year_stats dfPercHole).2 =
      Except.ok ⟨["2010-2014", "2015-2019"], ["Male_count"],
        ["Female_percent", "Male_percent"], [[10], [20]],
        [[⟨0, 1⟩, ⟨50, 1⟩], [⟨60, 1⟩, ⟨0, 1⟩]]⟩ := by
  constructor
  · rintro df hk ⟨yr, hyr, sx, hsx, hcell⟩
    have hic : intConvert (mkWide aggSum (countsSub (prepRows df.rows))).cells = none := by
      apply intConvert_eq_none _
        ((mkWide aggSum (countsSub (prepRows df.rows))).sexes.map
          (fun sx2 => aggSum (countsSub (prepRows df.rows)) yr sx2))
      · show _ ∈ (mkWide aggSum (countsSub (prepRows df.rows))).index.map
          (fun yr2 => (mkWide aggSum (countsSub (prepRows df.rows))).sexes.map
            (fun sx2 => aggSum (countsSub (prepRows df.rows)) yr2 sx2))
        exact List.mem_map_of_mem _ hyr
      · apply rowSome_eq_none
        rw [← hcell]
        exact List.mem_map_of_mem _ hsx
    show processBody (canonDF df) = Except.error intErr
    rw [processBody]
    simp only [canonDF]
    rw [hk]
    simp only []
    rw [hic]
  · rfl

theorem claim_C9_witness :
    (process_first_year_stats dfCountHole).2 = Except.error intErr :=
  claim_C9.1 dfCountHole (by decide) (by decide)

/-- C10: `process_first_year_stats` rewrites the column names of the table
passed to it (trimmed and lowercased) before any step that can fail: the
returned caller-side table always has canonicalised column names and
unchanged rows, and in particular for `dfYearOnly` the call fails with a
`KeyError` on `statistic label` while the caller's column names have already
been rewritten to `year`. -/
theorem claim_C10 :
    (∀ df : DFrame, (process_first_year_stats df).1 = ⟨df.cols.map canonCol, df.rows⟩) ∧
    (process_first_year_stats dfYearOnly).1 = ⟨["year"], []⟩ ∧
    (process_first_year_stats dfYearOnly).2 = Except.error (keyErr "statistic label") :=
  ⟨fun _ => rfl, rfl, rfl⟩
